import Mathlib

/-!
Verification of the claude-mem Hook Installation & Execution Subsystem.

This file shallowly embeds the parts of the repository that the claims
are about:

* the SessionStart user-message hook (`src/hooks/user-message-hook.ts`),
* the platform-aware error-message generator
  (`getWorkerRestartInstructions` / `getUserFriendlyError`),
* the Cursor hook executors and the Cursor hooks installer, registry
  store and platform resolver.

The installer, registry and the Cursor shell hook executors themselves
(`CursorHooksInstaller.ts`, `cursor-hooks/*.sh`) are not part of the
provided sources (only their tests are); those components are modelled
from the specification, as marked in the individual doc comments.
-/

/-! ## Generic list and string helpers -/

/-- Decide whether the list `a` is an initial segment of `l`. -/
def listStarts : List Char → List Char → Bool
  | [], _ => true
  | _ :: _, [] => false
  | a :: as, b :: bs => a == b && listStarts as bs

/-- Decide whether `n` occurs as a contiguous sublist of `h`. -/
def containsSub (n h : List Char) : Bool :=
  (List.range (h.length + 1)).any (fun i => listStarts n (h.drop i))

/-- Decide whether the string `a` is a prefix of the string `b`. -/
def strStarts (a b : String) : Bool :=
  listStarts a.data b.data

/-- Decide whether the string `n` is a substring of `h`. -/
def containsStr (n h : String) : Bool :=
  containsSub n.data h.data

/-- Case-insensitive substring test (mirrors a case-insensitive regex literal). -/
def containsCI (n h : String) : Bool :=
  containsSub (n.data.map Char.toLower) (h.data.map Char.toLower)

/-- Case-insensitive `a`, then any characters other than a newline, then `b`
(mirrors the JavaScript regex `a.*b` with the `i` flag, where `.` does not
match newlines). -/
def gapMatchCI (a b h : String) : Bool :=
  let ha := h.data.map Char.toLower
  let la := a.data.map Char.toLower
  let lb := b.data.map Char.toLower
  (List.range (ha.length + 1)).any (fun i =>
    listStarts la (ha.drop i) &&
    (let rest := (ha.drop i).drop la.length
     (List.range (rest.length + 1)).any (fun j =>
       (rest.take j).all (fun c => c != '\n') && listStarts lb (rest.drop j))))

theorem listStarts_refl (l : List Char) : listStarts l l = true := by
  induction l with
  | nil => rfl
  | cons a as ih => simp [listStarts, ih]

theorem listStarts_append (a t : List Char) : listStarts a (a ++ t) = true := by
  induction a with
  | nil => rfl
  | cons x xs ih => simp [listStarts, ih]

theorem drop_append_length_add (l m : List Char) (i : Nat) :
    (l ++ m).drop (l.length + i) = m.drop i := by
  induction l with
  | nil => simp
  | cons a as ih => simp only [List.length_cons, List.cons_append, Nat.succ_add, List.drop_succ_cons]
                    exact ih

theorem containsSub_of_starts_at (n h : List Char) (i : Nat)
    (hi : i ≤ h.length) (hs : listStarts n (h.drop i) = true) :
    containsSub n h = true := by
  unfold containsSub
  rw [List.any_eq_true]
  exact ⟨i, List.mem_range.mpr (Nat.lt_succ_of_le hi), hs⟩

theorem containsSub_append_right (n l m : List Char)
    (hm : containsSub n m = true) : containsSub n (l ++ m) = true := by
  unfold containsSub at hm
  rw [List.any_eq_true] at hm
  obtain ⟨i, hi, hs⟩ := hm
  have hi' : i ≤ m.length := Nat.le_of_lt_succ (List.mem_range.mp hi)
  apply containsSub_of_starts_at n (l ++ m) (l.length + i)
  · simp only [List.length_append]
    exact Nat.add_le_add_left hi' l.length
  · rwa [drop_append_length_add]

theorem listStarts_trans_append (n h t : List Char)
    (hs : listStarts n h = true) : listStarts n (h ++ t) = true := by
  induction n generalizing h with
  | nil => rfl
  | cons a as ih =>
    cases h with
    | nil => simp [listStarts] at hs
    | cons b bs =>
      simp only [listStarts, Bool.and_eq_true] at hs ⊢
      exact ⟨hs.1, ih bs hs.2⟩

theorem drop_append_of_le (l m : List Char) (i : Nat) (hi : i ≤ l.length) :
    (l ++ m).drop i = l.drop i ++ m := by
  induction l generalizing i with
  | nil =>
    cases i with
    | zero => simp
    | succ k => simp at hi
  | cons a as ih =>
    cases i with
    | zero => simp
    | succ k => simpa using ih k (Nat.le_of_succ_le_succ hi)

theorem containsSub_append_left (n l m : List Char)
    (hl : containsSub n l = true) : containsSub n (l ++ m) = true := by
  unfold containsSub at hl
  rw [List.any_eq_true] at hl
  obtain ⟨i, hi, hs⟩ := hl
  have hi' : i ≤ l.length := Nat.le_of_lt_succ (List.mem_range.mp hi)
  apply containsSub_of_starts_at n (l ++ m) i
  · simp only [List.length_append]
    exact Nat.le_trans hi' (Nat.le_add_right _ _)
  · rw [drop_append_of_le l m i hi']
    exact listStarts_trans_append n (l.drop i) m hs

theorem string_data_append (a b : String) : (a ++ b).data = a.data ++ b.data :=
  rfl

theorem containsStr_append_right (n l m : String)
    (h : containsStr n m = true) : containsStr n (l ++ m) = true := by
  unfold containsStr at h ⊢
  rw [string_data_append]
  exact containsSub_append_right n.data l.data m.data h

theorem containsStr_append_left (n l m : String)
    (h : containsStr n l = true) : containsStr n (l ++ m) = true := by
  unfold containsStr at h ⊢
  rw [string_data_append]
  exact containsSub_append_left n.data l.data m.data h

theorem containsStr_self (s : String) : containsStr s s = true := by
  unfold containsStr
  apply containsSub_of_starts_at s.data s.data 0 (Nat.zero_le _)
  simpa using listStarts_refl s.data

/-! ## Hook response payloads

`HookResponsePayload` from the data model: a JSON object written to standard
output with at least a boolean `continue` flag, and optionally a
`hookSpecificOutput` object carrying injected context text. `renderResponse`
is the serialization of such a payload to the JSON text a hook prints. -/

/-- The JSON decision payload a Cursor hook writes to standard output.
`cont` is the `continue` flag; `hookSpecificOutput` optionally carries
injected context text. -/
structure CursorHookResponse where
  cont : Bool
  hookSpecificOutput : Option String
deriving DecidableEq, Repr

/-- Serialize a `CursorHookResponse` to its JSON text. -/
def renderResponse (r : CursorHookResponse) : String :=
  "\x7b\"continue\": " ++ (if r.cont then "true" else "false") ++
    (match r.hookSpecificOutput with
     | none => ""
     | some t => ", \"hookSpecificOutput\": \"" ++ t ++ "\"") ++ "\x7d"

theorem renderResponse_ne_empty (r : CursorHookResponse) : renderResponse r ≠ "" := by
  unfold renderResponse
  intro h
  have hd := congrArg String.data h
  simp only [string_data_append] at hd
  cases r.cont <;> cases r.hookSpecificOutput <;> simp at hd

/-- The proposition that a hook's standard-output text is the serialization of
a valid `HookResponsePayload` whose `continue` flag is `true`. -/
def emitsContinueTrue (out : String) : Prop :=
  ∃ r : CursorHookResponse, out = renderResponse r ∧ r.cont = true

/-! ## Worker availability -/

/-- The state of the long-running worker as seen by one hook invocation:
either unreachable within the retry budget, or available, in which case the
worker decides the privacy check (`privacyBlock`) and serves context text. -/
inductive WorkerState where
  | unavailable : WorkerState
  | available : (privacyBlock : Bool) → (contextText : String) → WorkerState
deriving DecidableEq, Repr

/-! ## Cursor hook executors

Modelled from the spec: the Cursor hook scripts (`cursor-hooks/session-init.sh`,
`context-inject.sh`, `save-observation.sh`, `save-file-edit.sh`) are not part
of the provided sources; their behaviour is taken from spec sections 4.3, 4.4
and 7: a hook reads one JSON event payload (a malformed payload is treated as
the empty object), ensures the worker is running, performs its event-specific
call, and always degrades to a terminal response that never blocks the host.
Only an explicit policy decision (the privacy check) may set
`continue: false`. -/

/-- The event payload a host sends to a prompt hook executor; `none` stands
for a malformed or empty standard-input payload (which the hooks' JSON reader
maps to the empty object). -/
structure PromptPayload where
  conversationId : String
  prompt : String
  workspaceRoot : String
deriving DecidableEq, Repr

/-- Modelled from the spec: the `beforeSubmitPrompt` session-init executor
(`cursor-hooks/session-init.sh` is not under the provided sources).
Returns the standard-output text and the exit code. A malformed payload or an
unavailable worker yields the degraded `continue: true` response; only the
worker-side privacy policy may deny continuation. -/
def sessionInitHook (w : WorkerState) (input : Option PromptPayload) :
    String × Nat :=
  match input with
  | none => (renderResponse ⟨true, none⟩, 0)
  | some _ =>
    match w with
    | WorkerState.unavailable => (renderResponse ⟨true, none⟩, 0)
    | WorkerState.available privacyBlock _ =>
      if privacyBlock then (renderResponse ⟨false, none⟩, 0)
      else (renderResponse ⟨true, none⟩, 0)

/-- Modelled from the spec: the `beforeSubmitPrompt` context-inject executor
(`cursor-hooks/context-inject.sh` is not under the provided sources).
Always emits `continue: true`; when the worker serves context the text is
attached as `hookSpecificOutput`. -/
def contextInjectHook (w : WorkerState) (input : Option PromptPayload) :
    String × Nat :=
  match input with
  | none => (renderResponse ⟨true, none⟩, 0)
  | some _ =>
    match w with
    | WorkerState.unavailable => (renderResponse ⟨true, none⟩, 0)
    | WorkerState.available _ ctx => (renderResponse ⟨true, some ctx⟩, 0)

/-- The event payload of an observation-capture hook; `none` stands for a
malformed standard-input payload. -/
structure ObservationPayload where
  conversationId : String
  eventName : String
  body : String
deriving DecidableEq, Repr

/-- Result of one fire-and-forget hook invocation: standard-output text, exit
code, and the observation that was submitted to the worker (if any). -/
structure FireAndForgetResult where
  stdoutBytes : String
  exitCode : Nat
  submitted : Option ObservationPayload
deriving DecidableEq, Repr

/-- Modelled from the spec: the observation-capture executor
(`cursor-hooks/save-observation.sh` is not under the provided sources).
Fire-and-forget: no standard output on success, all errors swallowed, exit
zero unconditionally. -/
def saveObservationHook (w : WorkerState) (input : Option ObservationPayload) :
    FireAndForgetResult :=
  match input with
  | none => ⟨"", 0, none⟩
  | some p =>
    match w with
    | WorkerState.unavailable => ⟨"", 0, none⟩
    | WorkerState.available _ _ => ⟨"", 0, some p⟩

/-- Modelled from the spec: the file-edit-capture executor
(`cursor-hooks/save-file-edit.sh` is not under the provided sources).
Fire-and-forget, same contract as `saveObservationHook`. -/
def saveFileEditHook (w : WorkerState) (input : Option ObservationPayload) :
    FireAndForgetResult :=
  match input with
  | none => ⟨"", 0, none⟩
  | some p =>
    match w with
    | WorkerState.unavailable => ⟨"", 0, none⟩
    | WorkerState.available _ _ => ⟨"", 0, some p⟩

/-! ## The SessionStart user-message hook

Embedded from `src/hooks/user-message-hook.ts`. The hook fetches formatted
context from the worker; on a non-OK response it logs a warning (to the
logger, not to a standard stream) and exits with
`HOOK_EXIT_CODES.USER_MESSAGE_ONLY`; on success it prints a banner with the
context text to standard error and exits with the same code. The numeric
value of `USER_MESSAGE_ONLY` lives in `src/shared/hook-constants.ts` (not in
the provided sources), so the embedding is parameterized by it; the claims
only compare the code across outcomes. -/

/-- The worker's HTTP response as seen by the user-message hook. -/
structure WorkerHttpResponse where
  ok : Bool
  status : Nat
  body : String
deriving DecidableEq, Repr

/-- Observable result of one user-message-hook process: bytes written to
standard output and to standard error, and the process exit code. -/
structure HookProcessResult where
  stdoutBytes : String
  stderrBytes : String
  exitCode : Nat
deriving DecidableEq, Repr

/-- Embedding of `src/hooks/user-message-hook.ts`, lines 22-45.
`userMessageOnlyCode` is `HOOK_EXIT_CODES.USER_MESSAGE_ONLY`. -/
def userMessageHook (userMessageOnlyCode : Nat) (port : Nat)
    (resp : WorkerHttpResponse) : HookProcessResult :=
  if resp.ok then
    { stdoutBytes := ""
      stderrBytes :=
        "\n\n📝 Claude-Mem Context Loaded\n" ++
        "   ℹ️  Note: This appears as stderr but is informational only\n\n" ++
        resp.body ++
        "\n\n💡 New! Wrap all or part of any message with <private> ... </private> to prevent storing sensitive information in your observation history.\n" ++
        "\n💬 Community https://discord.gg/J4wttp9vDu" ++
        "\n📺 Watch live in browser http://localhost:" ++ toString port ++ "/\n"
      exitCode := userMessageOnlyCode }
  else
    { stdoutBytes := ""
      stderrBytes := ""
      exitCode := userMessageOnlyCode }

/-! ## Filesystem model

The installer claims are about the on-disk artifacts, so the filesystem is
modelled as an association list from absolute paths to file contents. File
contents are kept structured (manifest and registry values rather than their
serialized bytes); serialization is deterministic, so equality of contents is
byte identity. -/

/-- One entry of the Cursor project registry: absolute workspace path and
install timestamp. -/
structure RegistryEntry where
  workspacePath : String
  installedAt : Nat
deriving DecidableEq, Repr

/-- One hook invocation spec of the manifest: executable command line and
timeout in seconds. -/
structure HookSpec where
  command : String
  timeoutSeconds : Nat
deriving DecidableEq, Repr

/-- The host-readable `hooks.json` manifest: schema version and a mapping from
lifecycle-event name to an ordered list of hook invocation specs. -/
structure HookManifest where
  version : Nat
  hooks : List (String × List HookSpec)
deriving DecidableEq, Repr

/-- Content of one file in the model. -/
inductive Content where
  | text : String → Content
  | manifest : HookManifest → Content
  | registry : List (String × RegistryEntry) → Content
  | script : String → Content
deriving DecidableEq, Repr

/-- A filesystem: an association list from absolute path to content. -/
abbrev FS := List (String × Content)

/-- Look up the content of a file; `none` when the file is absent. -/
def lookupFS : FS → String → Option Content
  | [], _ => none
  | (p, c) :: rest, q => if p = q then some c else lookupFS rest q

/-- Write a file: replace the first entry at the path, or append a new one. -/
def setFile : FS → String → Content → FS
  | [], p, c => [(p, c)]
  | (q, d) :: rest, p, c =>
    if q = p then (p, c) :: rest else (q, d) :: setFile rest p c

/-- Delete the file at a path (no-op when absent). -/
def removeFile (fs : FS) (p : String) : FS :=
  fs.filter (fun e => e.1 != p)

/-- Delete every file whose path starts with `pre` (the contents of one
directory). -/
def removePrefixed (fs : FS) (pre : String) : FS :=
  fs.filter (fun e => !(strStarts pre e.1))

/-- Two filesystems hold byte-identical files: every path maps to the same
content (or is absent in both). -/
def sameFiles (a b : FS) : Prop :=
  ∀ p, lookupFS a p = lookupFS b p

theorem lookupFS_setFile (fs : FS) (p : String) (c : Content) (q : String) :
    lookupFS (setFile fs p c) q = if p = q then some c else lookupFS fs q := by
  induction fs with
  | nil => simp [setFile, lookupFS]
  | cons e rest ih =>
    obtain ⟨r, d⟩ := e
    by_cases hrp : r = p
    · subst hrp
      by_cases hq : r = q <;> simp [setFile, lookupFS, hq]
    · by_cases hq : r = q
      · subst hq
        have hpq : ¬ p = r := fun h => hrp h.symm
        simp [setFile, lookupFS, hrp, hpq]
      · simp [setFile, lookupFS, hrp, hq, ih]

theorem lookupFS_removeFile (fs : FS) (p q : String) :
    lookupFS (removeFile fs p) q = if p = q then none else lookupFS fs q := by
  induction fs with
  | nil => simp [removeFile, lookupFS]
  | cons e rest ih =>
    obtain ⟨r, d⟩ := e
    by_cases hrp : r = p
    · subst hrp
      by_cases hq : r = q
      · subst hq
        simp only [removeFile, List.filter] at ih ⊢
        simp [ih]
      · simp only [removeFile, List.filter] at ih ⊢
        simp only [bne_self_eq_false]
        rw [ih]
        by_cases hpq : r = q <;> simp_all [lookupFS]
    · by_cases hq : r = q
      · subst hq
        have : (r != p) = true := bne_iff_ne.mpr hrp
        simp only [removeFile, List.filter, this, lookupFS]
        have hpq : ¬ p = r := fun h => hrp h.symm
        simp [hpq]
      · have : (r != p) = true := bne_iff_ne.mpr hrp
        simp only [removeFile, List.filter, this, lookupFS] at ih ⊢
        simp [hq, ih]

theorem lookupFS_removePrefixed (fs : FS) (pre q : String) :
    lookupFS (removePrefixed fs pre) q =
      if strStarts pre q then none else lookupFS fs q := by
  induction fs with
  | nil => simp [removePrefixed, lookupFS]
  | cons e rest ih =>
    obtain ⟨r, d⟩ := e
    by_cases hq : r = q
    · subst hq
      by_cases hs : strStarts pre r = true
      · simp only [removePrefixed, List.filter, hs] at ih ⊢
        simp [ih, hs]
      · have hs' : strStarts pre r = false := by
          cases h : strStarts pre r
          · rfl
          · exact absurd h hs
        simp [removePrefixed, List.filter, hs', lookupFS]
    · cases hs : strStarts pre r
      · simp only [removePrefixed, List.filter, hs, Bool.not_false, lookupFS, hq,
          if_false] at ih ⊢
        simp [ih, hq]
      · simp only [removePrefixed, List.filter, hs, Bool.not_true] at ih ⊢
        rw [ih]
        by_cases hsq : strStarts pre q = true <;> simp [hsq, lookupFS, hq]

theorem lookupFS_none_of_all (fs : FS) (P : String → Bool) (q : String)
    (hall : ∀ e ∈ fs, P e.1 = false) (hq : P q = true) :
    lookupFS fs q = none := by
  induction fs with
  | nil => rfl
  | cons e rest ih =>
    obtain ⟨r, d⟩ := e
    have hr : P r = false := hall (r, d) (List.mem_cons_self _ _)
    have hrq : ¬ r = q := by
      intro h
      rw [h, hq] at hr
      exact Bool.noConfusion hr
    simp only [lookupFS, hrq, if_false]
    exact ih (fun e he => hall e (List.mem_cons_of_mem _ he))

/-! ## Registry store

Modelled from the spec: `CursorHooksInstaller.ts` (registry operations
`readCursorRegistry`, `writeCursorRegistry`, `registerCursorProject`,
`unregisterCursorProject`) is not under the provided sources; the behaviour
is taken from spec section 4.2 and the registry file location from the tests
(`~/.claude-mem/cursor-projects.json`). `read` returns the empty mapping when
the backing file is absent (or holds malformed data, per section 7);
`register` upserts with the current timestamp; `unregister` removes the entry
if present and is a no-op otherwise. -/

/-- Absolute path of the registry backing file for a given home directory. -/
def registryPath (home : String) : String :=
  home ++ "/.claude-mem/cursor-projects.json"

/-- Association-list lookup of a registry entry by project name. -/
def lookupEntry : List (String × RegistryEntry) → String → Option RegistryEntry
  | [], _ => none
  | (n, e) :: rest, m => if n = m then some e else lookupEntry rest m

/-- Upsert: replace the entry under the name in place, or append a new one
(later registration overwrites earlier). -/
def upsertEntry : List (String × RegistryEntry) → String → RegistryEntry →
    List (String × RegistryEntry)
  | [], n, e => [(n, e)]
  | (m, d) :: rest, n, e =>
    if m = n then (n, e) :: rest else (m, d) :: upsertEntry rest n e

/-- Remove every entry under the given project name. -/
def eraseEntry (r : List (String × RegistryEntry)) (n : String) :
    List (String × RegistryEntry) :=
  r.filter (fun e => e.1 != n)

/-- Modelled from the spec: `read()` returns the full mapping, the empty
mapping when the backing file is absent, and (section 7) malformed registry
data is treated as empty rather than fatal. -/
def readCursorRegistry (home : String) (fs : FS) :
    List (String × RegistryEntry) :=
  match lookupFS fs (registryPath home) with
  | some (Content.registry r) => r
  | _ => []

/-- Modelled from the spec: `write(mapping)` overwrites the backing file. -/
def writeCursorRegistry (home : String) (fs : FS)
    (r : List (String × RegistryEntry)) : FS :=
  setFile fs (registryPath home) (Content.registry r)

/-- Modelled from the spec: `register(name, path)` upserts an entry with the
current timestamp. -/
def registerCursorProject (home : String) (fs : FS) (name path : String)
    (now : Nat) : FS :=
  writeCursorRegistry home fs
    (upsertEntry (readCursorRegistry home fs) name ⟨path, now⟩)

/-- Modelled from the spec: `unregister(name)` removes the entry if present,
no-op otherwise. -/
def unregisterCursorProject (home : String) (fs : FS) (name : String) : FS :=
  let r := readCursorRegistry home fs
  match lookupEntry r name with
  | none => fs
  | some _ => writeCursorRegistry home fs (eraseEntry r name)

/-! ## Platform resolver and installer

Modelled from the spec: `CursorHooksInstaller.ts` (`detectPlatform`,
`getScriptExtension`, `getTargetDir`, `installCursorHooks`,
`uninstallCursorHooks`) is not under the provided sources. Behaviour is taken
from spec sections 4.1, 4.5 and 4.6, with the concrete target directories,
manifest shape, command-line forms and artifact paths fixed by the tests
(`tests/cursor-hooks-installer.test.ts`). The scope argument is a plain
string, as the TypeScript union type does not prevent unrecognized values at
runtime. -/

/-- Host operating system. -/
inductive OS where
  | windows : OS
  | macos : OS
  | linux : OS
deriving DecidableEq, Repr

/-- Host OS classification: windows vs. unix-like. -/
def detectPlatform (os : OS) : String :=
  match os with
  | OS.windows => "windows"
  | _ => "unix"

/-- Platform-appropriate hook script extension. -/
def getScriptExtension (os : OS) : String :=
  match os with
  | OS.windows => ".ps1"
  | _ => ".sh"

/-- Modelled from the spec: the enterprise scope resolves to a fixed,
OS-dependent system path (the macOS path is fixed by the tests) and fails on
operating systems where no such path is defined. -/
def enterpriseDir (os : OS) : Option String :=
  match os with
  | OS.macos => some "/Library/Application Support/Cursor"
  | _ => none

/-- Modelled from the spec: resolve the absolute target directory for a scope,
or `none` for an unrecognized scope. Project scope resolves under the current
working directory, user scope under the invoking user's home directory. -/
def getTargetDir (cwd home : String) (os : OS) (scope : String) :
    Option String :=
  if scope = "project" then some (cwd ++ "/.cursor")
  else if scope = "user" then some (home ++ "/.cursor")
  else if scope = "enterprise" then enterpriseDir os
  else none

/-- Environment of one installer invocation: working directory, home
directory, host OS, the script files present in the source directory, the
result of the worker `fetchContext` call (`none` when the worker fails), and
the current timestamp. -/
structure InstallEnv where
  cwd : String
  home : String
  os : OS
  sourceScripts : List String
  workerContext : Option String
  now : Nat

/-- Base name of a workspace path (the project name key of the registry). -/
def basename (s : String) : String :=
  String.mk ((s.data.reverse.takeWhile (fun c => c != '/')).reverse)

/-- The five hook script base names. -/
def hookScriptBases : List String :=
  ["session-init", "context-inject", "save-observation",
   "save-file-edit", "session-summary"]

/-- The scripts the installer copies for a platform: the shared `common`
script plus the five hook scripts, with the platform extension. -/
def scriptsToCopy (os : OS) : List String :=
  ("common" ++ getScriptExtension os) ::
    hookScriptBases.map (fun b => b ++ getScriptExtension os)

/-- Path of the manifest file under a target directory. -/
def manifestPath (target : String) : String :=
  target ++ "/hooks.json"

/-- Path prefix of the hook-script directory under a target directory. -/
def hooksDirPre (target : String) : String :=
  target ++ "/hooks/"

/-- Path of the generated context snippet file for a workspace. -/
def snippetPath (cwd : String) : String :=
  cwd ++ "/.cursor/rules/claude-mem-context.mdc"

/-- The host-required header of the context snippet file, carrying Cursor's
"always apply" marker. -/
def contextFileHeader : String :=
  "---\nalwaysApply: true\n---\n\n"

/-- Modelled from the spec: command line written into the manifest for one
hook script. Relative paths for project scope, absolute paths for
user/enterprise scope; on Windows the invocation is wrapped in the
restricted-execution-policy shell form. -/
def hookCommand (os : OS) (scope target base : String) : String :=
  if os = OS.windows then
    "powershell.exe -ExecutionPolicy Bypass -File \"" ++
      hooksDirPre target ++ base ++ ".ps1\""
  else if scope = "project" then
    "./.cursor/hooks/" ++ base ++ ".sh"
  else
    hooksDirPre target ++ base ++ getScriptExtension os

/-- Modelled from the spec: hook timeout written into the manifest (the spec
fixes no numeric value; the claims do not depend on it). -/
def hookTimeoutSeconds : Nat := 30

/-- The manifest the installer writes: schema version 1 and the five Cursor
lifecycle events, in the order fixed by the tests. -/
def buildManifest (os : OS) (scope target : String) : HookManifest :=
  { version := 1
    hooks :=
      [("beforeSubmitPrompt",
         [⟨hookCommand os scope target "session-init", hookTimeoutSeconds⟩,
          ⟨hookCommand os scope target "context-inject", hookTimeoutSeconds⟩]),
       ("afterMCPExecution",
         [⟨hookCommand os scope target "save-observation", hookTimeoutSeconds⟩]),
       ("afterShellExecution",
         [⟨hookCommand os scope target "save-observation", hookTimeoutSeconds⟩]),
       ("afterFileEdit",
         [⟨hookCommand os scope target "save-file-edit", hookTimeoutSeconds⟩]),
       ("stop",
         [⟨hookCommand os scope target "session-summary", hookTimeoutSeconds⟩])] }

/-- Copy each script that exists in the source directory into the target hook
directory; a missing individual script is skipped (logged as a warning, not
fatal). -/
def copyScripts (sourceScripts : List String) (target : String) :
    List String → FS → FS
  | [], fs => fs
  | n :: rest, fs =>
    copyScripts sourceScripts target rest
      (if sourceScripts.contains n then
        setFile fs (hooksDirPre target ++ n) (Content.script n)
      else fs)

/-- Install step: for project scope, materialize the context snippet file
from the worker `fetchContext` result; skipped when the worker fails
(graceful degradation) and for user/enterprise scope. -/
def snippetStep (env : InstallEnv) (scope : String) (fs : FS) : FS :=
  if scope = "project" then
    match env.workerContext with
    | some t =>
      setFile fs (snippetPath env.cwd) (Content.text (contextFileHeader ++ t))
    | none => fs
  else fs

/-- Install step: for project scope, register the project in the registry
store keyed by workspace base name. -/
def registerStep (env : InstallEnv) (scope : String) (fs : FS) : FS :=
  if scope = "project" then
    registerCursorProject env.home fs (basename env.cwd) env.cwd env.now
  else fs

/-- Uninstall step: for project scope, remove the context snippet file. -/
def snippetRemoveStep (env : InstallEnv) (scope : String) (fs : FS) : FS :=
  if scope = "project" then removeFile fs (snippetPath env.cwd) else fs

/-- Uninstall step: for project scope, unregister the project. -/
def unregisterStep (env : InstallEnv) (scope : String) (fs : FS) : FS :=
  if scope = "project" then
    unregisterCursorProject env.home fs (basename env.cwd)
  else fs

/-- Modelled from the spec: `install(sourceDir, scope)`. Resolves the target
directory (failure code 1 on an unrecognized scope), writes the manifest,
copies the platform's scripts, and for project scope materializes the context
snippet from the worker `fetchContext` result (skipped when the worker fails)
and registers the project under the workspace base name. Returns the status
code and the resulting filesystem. -/
def installCursorHooks (env : InstallEnv) (scope : String) (fs : FS) :
    Nat × FS :=
  match getTargetDir env.cwd env.home env.os scope with
  | none => (1, fs)
  | some target =>
    (0, registerStep env scope (snippetStep env scope
      (copyScripts env.sourceScripts target (scriptsToCopy env.os)
        (setFile fs (manifestPath target)
          (Content.manifest (buildManifest env.os scope target))))))

/-- Modelled from the spec: `uninstall(scope)`. Removes the manifest, the
hook-script directory contents, the context snippet (project scope) and the
registry entry (project scope); every step is idempotent and the absence of a
target to remove is success. -/
def uninstallCursorHooks (env : InstallEnv) (scope : String) (fs : FS) :
    Nat × FS :=
  match getTargetDir env.cwd env.home env.os scope with
  | none => (1, fs)
  | some target =>
    (0, unregisterStep env scope (snippetRemoveStep env scope
      (removePrefixed (removeFile fs (manifestPath target))
        (hooksDirPre target))))

/-! ## Registry and installer frame lemmas -/

theorem lookupEntry_upsert_self (r : List (String × RegistryEntry))
    (n : String) (e : RegistryEntry) :
    lookupEntry (upsertEntry r n e) n = some e := by
  induction r with
  | nil => simp [upsertEntry, lookupEntry]
  | cons x rest ih =>
    obtain ⟨m, d⟩ := x
    by_cases hm : m = n
    · simp [upsertEntry, hm, lookupEntry]
    · simp [upsertEntry, hm, lookupEntry, ih]

theorem lookupEntry_upsert_other (r : List (String × RegistryEntry))
    (n : String) (e : RegistryEntry) (m : String) (hm : m ≠ n) :
    lookupEntry (upsertEntry r n e) m = lookupEntry r m := by
  have hnm : ¬ n = m := fun h => hm h.symm
  induction r with
  | nil => simp [upsertEntry, lookupEntry, hnm]
  | cons x rest ih =>
    obtain ⟨k, d⟩ := x
    by_cases hk : k = n
    · subst hk
      simp [upsertEntry, lookupEntry, hnm]
    · simp [upsertEntry, hk, lookupEntry, ih]

theorem lookupEntry_erase_self (r : List (String × RegistryEntry))
    (n : String) : lookupEntry (eraseEntry r n) n = none := by
  induction r with
  | nil => rfl
  | cons x rest ih =>
    obtain ⟨k, d⟩ := x
    by_cases hk : k = n
    · subst hk
      simp only [eraseEntry, List.filter, bne_self_eq_false] at ih ⊢
      exact ih
    · have : (k != n) = true := bne_iff_ne.mpr hk
      simp only [eraseEntry, List.filter, this, lookupEntry, hk, if_false] at ih ⊢
      exact ih

theorem lookupEntry_erase_other (r : List (String × RegistryEntry))
    (n : String) (m : String) (hm : m ≠ n) :
    lookupEntry (eraseEntry r n) m = lookupEntry r m := by
  have hnm : ¬ n = m := fun h => hm h.symm
  induction r with
  | nil => rfl
  | cons x rest ih =>
    obtain ⟨k, d⟩ := x
    by_cases hk : k = n
    · subst hk
      simp only [eraseEntry, List.filter, bne_self_eq_false] at ih ⊢
      rw [ih]
      simp [lookupEntry, hnm]
    · have : (k != n) = true := bne_iff_ne.mpr hk
      simp only [eraseEntry, List.filter, this, lookupEntry] at ih ⊢
      by_cases hkm : k = m <;> simp [hkm, ih]

theorem eraseEntry_absent (r : List (String × RegistryEntry)) (n : String)
    (h : lookupEntry r n = none) : eraseEntry r n = r := by
  induction r with
  | nil => rfl
  | cons x rest ih =>
    obtain ⟨k, d⟩ := x
    simp only [lookupEntry] at h
    by_cases hk : k = n
    · simp [hk] at h
    · have hb : (k != n) = true := bne_iff_ne.mpr hk
      simp only [hk, if_false] at h
      simp only [eraseEntry, List.filter, hb] at ih ⊢
      rw [ih h]

theorem eraseEntry_upsert (r : List (String × RegistryEntry)) (n : String)
    (e : RegistryEntry) (h : lookupEntry r n = none) :
    eraseEntry (upsertEntry r n e) n = r := by
  induction r with
  | nil => simp [upsertEntry, eraseEntry, List.filter]
  | cons x rest ih =>
    obtain ⟨k, d⟩ := x
    simp only [lookupEntry] at h
    by_cases hk : k = n
    · simp [hk] at h
    · have hb : (k != n) = true := bne_iff_ne.mpr hk
      simp only [hk, if_false] at h
      simp only [upsertEntry, hk, if_false, eraseEntry, List.filter, hb] at ih ⊢
      rw [ih h]

theorem strStarts_append_self (a t : String) :
    strStarts a (a ++ t) = true := by
  unfold strStarts
  rw [string_data_append]
  exact listStarts_append a.data t.data

/-- Every path `copyScripts` writes lies under the hook directory, so lookups
outside that directory are unchanged. -/
theorem lookupFS_copyScripts (src : List String) (target : String)
    (names : List String) (fs : FS) (q : String)
    (hq : strStarts (hooksDirPre target) q = false) :
    lookupFS (copyScripts src target names fs) q = lookupFS fs q := by
  induction names generalizing fs with
  | nil => rfl
  | cons n rest ih =>
    simp only [copyScripts]
    rw [ih]
    by_cases hc : src.contains n = true
    · rw [if_pos hc, lookupFS_setFile]
      have hne : ¬ hooksDirPre target ++ n = q := by
        intro h
        rw [← h] at hq
        rw [strStarts_append_self] at hq
        exact Bool.noConfusion hq
      simp [hne]
    · rw [if_neg hc]

/-! ## The platform-aware error message generator

Embedded from the repository's worker error-message module
(`getWorkerRestartInstructions` and `getUserFriendlyError`). -/

/-- Options of `getWorkerRestartInstructions`; the `platform` default
resolved from `process.platform` is made explicit. -/
structure WorkerErrorMessageOptions where
  port : Option Nat
  includeSkillFallback : Bool
  customPrefix : Option String
  actualError : Option String
  platform : OS

/-- The message head of `getWorkerRestartInstructions`: the (custom or
default) error line with optional port information, followed by the first
quick-fix step (source lines 30-35). -/
def wriHead (o : WorkerErrorMessageOptions) : String :=
  (match o.customPrefix with
   | some s => s
   | none => "Worker service connection failed.") ++
  (match o.port with
   | some p => " (port " ++ toString p ++ ")"
   | none => "") ++
  "\n\n" ++ "🔧 Quick Fix:\n" ++ "1. Exit Claude Code completely\n"

/-- The platform-specific second quick-fix step of
`getWorkerRestartInstructions` (source lines 37-43): PowerShell instructions
on Windows, a plain shell command otherwise. -/
def wriStep2 (platform : OS) : String :=
  if platform = OS.windows then
    "2. Open PowerShell and run:\n" ++
      "   cd ~/.claude/plugins/marketplaces/thedotmack\n" ++
      "   npm run worker:restart\n"
  else
    "2. Run: npm run worker:restart\n"

/-- The tail of `getWorkerRestartInstructions` (source lines 45-54): the
third step, the persistent-problem tips, and the optional skill fallback. -/
def wriTail (includeSkillFallback : Bool) : String :=
  "3. Restart Claude Code\n\n" ++
  "💡 If the problem persists:\n" ++
  "   • Check worker logs: npm run worker:logs\n" ++
  "   • Verify worker status: npm run worker:status\n" ++
  "   • See troubleshooting guide: https://docs.claude-mem.ai/troubleshooting" ++
  (if includeSkillFallback then
    "\n\n💬 Or ask Claude: \"troubleshoot claude-mem\""
  else "")

/-- Embedding of `getWorkerRestartInstructions` (worker error-message
module, lines 18-62): the actual error (if any) prepended to head,
platform step and tail. -/
def getWorkerRestartInstructions (o : WorkerErrorMessageOptions) : String :=
  (match o.actualError with
   | some e => "❌ Error: " ++ e ++ "\n\n"
   | none => "") ++
  (wriHead o ++ wriStep2 o.platform ++ wriTail o.includeSkillFallback)

/-- The six error patterns of `getUserFriendlyError` as boolean tests, in
source order, each mirroring the corresponding case-insensitive regex. -/
def errorPatternTests : List (String → Bool) :=
  [fun s => containsCI "ECONNREFUSED" s || containsCI "connection refused" s,
   fun s => gapMatchCI "port" "in use" s || containsCI "EADDRINUSE" s,
   fun s => containsCI "ENOENT" s || containsCI "no such file" s ||
     containsCI "not found" s,
   fun s => containsCI "permission denied" s || containsCI "EACCES" s,
   fun s => containsCI "timeout" s || containsCI "ETIMEDOUT" s,
   fun s => gapMatchCI "database" "locked" s || containsCI "SQLITE_BUSY" s]

/-- The six solution lines of `getUserFriendlyError`, in source order. -/
def errorSolutions : List String :=
  ["The worker service is not running. Try: npm run worker:start",
   "Port is already in use. Try: npm run worker:stop, then npm run worker:start",
   "A required file is missing. Try: npm run build to rebuild the plugin",
   "Permission denied. Check file permissions or run with appropriate privileges",
   "Operation timed out. The worker may be overloaded. Try restarting: npm run worker:restart",
   "Database is locked. Another process may be using it. Try: npm run worker:restart"]

/-- The pattern/solution table of `getUserFriendlyError` (lines 71-96). -/
def errorPatterns : List ((String → Bool) × String) :=
  errorPatternTests.zip errorSolutions

/-- The separator the source puts between the original message and the
solution line. -/
def solutionSep : String := "\n\n💡 Solution: "

/-- Embedding of `getUserFriendlyError` (worker error-message module,
lines 67-112). The `error` argument is taken as its message string. -/
def getUserFriendlyError (errorMessage : String) (context : Option String) :
    String :=
  match errorPatterns.find? (fun ps => ps.1 errorMessage) with
  | some ps => errorMessage ++ solutionSep ++ ps.2
  | none =>
    match context with
    | some c => c ++ ": " ++ errorMessage
    | none => errorMessage

theorem lookupFS_register_ne (home : String) (fs : FS)
    (name path : String) (now : Nat) (q : String)
    (h : registryPath home ≠ q) :
    lookupFS (registerCursorProject home fs name path now) q =
      lookupFS fs q := by
  unfold registerCursorProject writeCursorRegistry
  rw [lookupFS_setFile]
  simp [h]

theorem lookupFS_unregister_ne (home : String) (fs : FS) (name q : String)
    (h : registryPath home ≠ q) :
    lookupFS (unregisterCursorProject home fs name) q = lookupFS fs q := by
  unfold unregisterCursorProject
  cases hle : lookupEntry (readCursorRegistry home fs) name with
  | none => simp [hle]
  | some e => simp [hle, writeCursorRegistry, lookupFS_setFile, h]

theorem lookupFS_snippetStep_ne (env : InstallEnv) (scope : String)
    (fs : FS) (q : String) (h : snippetPath env.cwd ≠ q) :
    lookupFS (snippetStep env scope fs) q = lookupFS fs q := by
  unfold snippetStep
  by_cases hs : scope = "project"
  · rw [if_pos hs]
    cases env.workerContext with
    | none => rfl
    | some t => rw [lookupFS_setFile]; simp [h]
  · rw [if_neg hs]

theorem lookupFS_registerStep_ne (env : InstallEnv) (scope : String)
    (fs : FS) (q : String) (h : registryPath env.home ≠ q) :
    lookupFS (registerStep env scope fs) q = lookupFS fs q := by
  unfold registerStep
  by_cases hs : scope = "project"
  · rw [if_pos hs, lookupFS_register_ne _ _ _ _ _ _ h]
  · rw [if_neg hs]

theorem lookupFS_snippetRemoveStep_ne (env : InstallEnv) (scope : String)
    (fs : FS) (q : String) (h : snippetPath env.cwd ≠ q) :
    lookupFS (snippetRemoveStep env scope fs) q = lookupFS fs q := by
  unfold snippetRemoveStep
  by_cases hs : scope = "project"
  · rw [if_pos hs, lookupFS_removeFile]
    simp [h]
  · rw [if_neg hs]

theorem lookupFS_unregisterStep_ne (env : InstallEnv) (scope : String)
    (fs : FS) (q : String) (h : registryPath env.home ≠ q) :
    lookupFS (unregisterStep env scope fs) q = lookupFS fs q := by
  unfold unregisterStep
  by_cases hs : scope = "project"
  · rw [if_pos hs, lookupFS_unregister_ne _ _ _ _ h]
  · rw [if_neg hs]

theorem readCursorRegistry_register (home : String) (fs : FS)
    (name path : String) (now : Nat) :
    readCursorRegistry home (registerCursorProject home fs name path now) =
      upsertEntry (readCursorRegistry home fs) name ⟨path, now⟩ := by
  conv in readCursorRegistry home (registerCursorProject _ _ _ _ _) =>
    rw [readCursorRegistry]
  unfold registerCursorProject writeCursorRegistry
  rw [lookupFS_setFile]
  simp

/-! ## Claim theorems -/

/-- C1, counterexample: the informational SessionStart user-message hook
(`src/hooks/user-message-hook.ts`) does not emit JSON containing
`continue: true` on standard output — on a successful worker response it
writes nothing at all to standard output (its display goes to standard
error), so the claim's universal statement over every blocking/informational
hook executor fails on this executor. -/
theorem informational_hook_stdout_not_json :
    ¬ emitsContinueTrue
      (userMessageHook 2 37777 ⟨true, 200, "some context"⟩).stdoutBytes := by
  intro h
  obtain ⟨r, hout, _⟩ := h
  have hempty : (userMessageHook 2 37777
      ⟨true, 200, "some context"⟩).stdoutBytes = "" := rfl
  rw [hempty] at hout
  exact renderResponse_ne_empty r hout.symm

/-- C1 (amended): the blocking hook executors that speak on standard output
(the prompt-gate session-init hook and the context-inject hook) emit the
serialization of a valid response payload for every standard-input payload;
on a malformed or empty payload, and on total worker failure, that payload
has `continue: true` and they never deny continuation due to an internal
error. The informational user-message hook instead emits nothing on standard
output for any worker response. -/
theorem blocking_hooks_emit_continue_json :
    (∀ w : WorkerState, (sessionInitHook w none).1 = renderResponse ⟨true, none⟩) ∧
    (∀ p : PromptPayload,
      (sessionInitHook WorkerState.unavailable (some p)).1 =
        renderResponse ⟨true, none⟩) ∧
    (∀ (w : WorkerState) (input : Option PromptPayload),
      ∃ r, (contextInjectHook w input).1 = renderResponse r ∧ r.cont = true) ∧
    (∀ (code port : Nat) (resp : WorkerHttpResponse),
      (userMessageHook code port resp).stdoutBytes = "") := by
  refine ⟨fun w => rfl, fun p => rfl, ?_, ?_⟩
  · intro w input
    cases input with
    | none => exact ⟨⟨true, none⟩, rfl, rfl⟩
    | some p =>
      cases w with
      | unavailable => exact ⟨⟨true, none⟩, rfl, rfl⟩
      | available pb ctx => exact ⟨⟨true, some ctx⟩, rfl, rfl⟩
  · intro code port resp
    cases hok : resp.ok <;> simp [userMessageHook, hok]

/-- C2: every fire-and-forget hook invocation (observation capture and
file-edit capture), for every worker state and every standard-input payload
(malformed ones included), writes no bytes to standard output and exits with
status zero. -/
theorem fire_and_forget_silent_exit_zero :
    ∀ (w : WorkerState) (input : Option ObservationPayload),
      (saveObservationHook w input).stdoutBytes = "" ∧
      (saveObservationHook w input).exitCode = 0 ∧
      (saveFileEditHook w input).stdoutBytes = "" ∧
      (saveFileEditHook w input).exitCode = 0 := by
  intro w input
  cases input with
  | none => exact ⟨rfl, rfl, rfl, rfl⟩
  | some p => cases w <;> exact ⟨rfl, rfl, rfl, rfl⟩

/-- C10: the SessionStart user-message hook never writes to standard output;
in both its outcomes (successful context fetch, and non-OK worker response,
where it writes nothing to standard error) it terminates with the same
`USER_MESSAGE_ONLY` exit code, so a failed context fetch is indistinguishable
from success by exit code and standard output. -/
theorem user_message_hook_stdout_silent_exit_uniform :
    ∀ (code port : Nat) (resp other : WorkerHttpResponse)
      (status : Nat) (body : String),
      (userMessageHook code port resp).stdoutBytes = "" ∧
      (userMessageHook code port resp).exitCode = code ∧
      (userMessageHook code port resp).exitCode =
        (userMessageHook code port other).exitCode ∧
      (userMessageHook code port ⟨false, status, body⟩).stderrBytes = "" := by
  intro code port resp other status body
  refine ⟨?_, ?_, ?_, rfl⟩
  · cases hok : resp.ok <;> simp [userMessageHook, hok]
  · cases hok : resp.ok <;> simp [userMessageHook, hok]
  · cases hok : resp.ok <;> cases hok' : other.ok <;>
      simp [userMessageHook, hok, hok']

/-- C5: the platform resolver maps `project` to `.cursor` under the current
working directory and `user` to `.cursor` under the home directory, returns
`none` for any unrecognized scope, and `install` returns failure status 1
whenever scope resolution fails. -/
theorem target_dir_resolution_spec :
    (∀ (cwd home : String) (os : OS),
      getTargetDir cwd home os "project" = some (cwd ++ "/.cursor") ∧
      getTargetDir cwd home os "user" = some (home ++ "/.cursor")) ∧
    (∀ (cwd home : String) (os : OS) (scope : String),
      scope ≠ "project" → scope ≠ "user" → scope ≠ "enterprise" →
      getTargetDir cwd home os scope = none) ∧
    (∀ (env : InstallEnv) (scope : String) (fs : FS),
      getTargetDir env.cwd env.home env.os scope = none →
      (installCursorHooks env scope fs).1 = 1) := by
  refine ⟨fun cwd home os => ⟨rfl, rfl⟩, ?_, ?_⟩
  · intro cwd home os scope h1 h2 h3
    unfold getTargetDir
    rw [if_neg h1, if_neg h2, if_neg h3]
  · intro env scope fs h
    unfold installCursorHooks
    rw [h]

/-- C5 witness: concrete evaluation at the unrecognized scope `"global"`. -/
theorem target_dir_resolution_spec_witness :
    getTargetDir "/ws/app" "/home/u" OS.linux "global" = none ∧
    (installCursorHooks ⟨"/ws/app", "/home/u", OS.linux, [], none, 0⟩
      "global" []).1 = 1 :=
  ⟨target_dir_resolution_spec.2.1 "/ws/app" "/home/u" OS.linux "global"
      (by decide) (by decide) (by decide),
   target_dir_resolution_spec.2.2
      ⟨"/ws/app", "/home/u", OS.linux, [], none, 0⟩ "global" [] (by decide)⟩

/-- C4: for every resolvable scope and every starting filesystem (including
one where nothing was ever installed), `uninstall` returns success (status 0),
and calling it a second time immediately afterwards returns success again;
the absence of any target to remove is treated as success. -/
theorem uninstall_idempotent_success :
    ∀ (env : InstallEnv) (scope target : String) (fs : FS),
      getTargetDir env.cwd env.home env.os scope = some target →
      (uninstallCursorHooks env scope fs).1 = 0 ∧
      (uninstallCursorHooks env scope
        (uninstallCursorHooks env scope fs).2).1 = 0 := by
  intro env scope target fs h
  constructor
  · unfold uninstallCursorHooks
    rw [h]
  · conv in uninstallCursorHooks env scope (uninstallCursorHooks env scope fs).2 =>
      rw [uninstallCursorHooks]
    rw [h]

/-- C4 witness: concrete double uninstall from the empty filesystem. -/
theorem uninstall_idempotent_success_witness :
    (uninstallCursorHooks ⟨"/ws/app", "/home/u", OS.linux, [], none, 0⟩
      "project" []).1 = 0 ∧
    (uninstallCursorHooks ⟨"/ws/app", "/home/u", OS.linux, [], none, 0⟩
      "project"
      (uninstallCursorHooks ⟨"/ws/app", "/home/u", OS.linux, [], none, 0⟩
        "project" []).2).1 = 0 :=
  uninstall_idempotent_success ⟨"/ws/app", "/home/u", OS.linux, [], none, 0⟩
    "project" ("/ws/app" ++ "/.cursor") [] rfl

/-- C7: when the registry backing file is absent, `read()` returns the empty
mapping rather than failing, and a subsequent `register(name, path)` creates
the file with exactly one entry holding that workspace path and the install
timestamp. -/
theorem registry_absent_read_empty_then_register_creates :
    ∀ (home : String) (fs : FS),
      lookupFS fs (registryPath home) = none →
      readCursorRegistry home fs = [] ∧
      ∀ (name path : String) (now : Nat),
        lookupFS (registerCursorProject home fs name path now)
          (registryPath home) =
          some (Content.registry [(name, ⟨path, now⟩)]) := by
  intro home fs h
  have hread : readCursorRegistry home fs = [] := by
    unfold readCursorRegistry
    rw [h]
  refine ⟨hread, ?_⟩
  intro name path now
  unfold registerCursorProject writeCursorRegistry
  rw [lookupFS_setFile, hread]
  simp [upsertEntry]

/-- C7 witness: concrete evaluation from the empty filesystem. -/
theorem registry_absent_read_empty_witness :
    readCursorRegistry "/home/u" [] = [] ∧
    lookupFS (registerCursorProject "/home/u" [] "app" "/ws/app" 5)
      (registryPath "/home/u") =
      some (Content.registry [("app", ⟨"/ws/app", 5⟩)]) :=
  ⟨(registry_absent_read_empty_then_register_creates "/home/u" [] rfl).1,
   (registry_absent_read_empty_then_register_creates "/home/u" [] rfl).2
     "app" "/ws/app" 5⟩

/-- C8: for every registry state, registering a project and then
unregistering it removes exactly that project's entry (lookup of the name
afterwards is `none`), and every other entry of the registry is left
unchanged. -/
theorem register_unregister_exact_frame :
    ∀ (home : String) (fs : FS) (name path : String) (now : Nat),
      lookupEntry (readCursorRegistry home
        (unregisterCursorProject home
          (registerCursorProject home fs name path now) name)) name = none ∧
      ∀ other, other ≠ name →
        lookupEntry (readCursorRegistry home
          (unregisterCursorProject home
            (registerCursorProject home fs name path now) name)) other =
          lookupEntry (readCursorRegistry home fs) other := by
  intro home fs name path now
  have hreg := readCursorRegistry_register home fs name path now
  have hfinal :
      readCursorRegistry home
        (unregisterCursorProject home
          (registerCursorProject home fs name path now) name) =
      eraseEntry (upsertEntry (readCursorRegistry home fs) name
        ⟨path, now⟩) name := by
    unfold unregisterCursorProject
    rw [hreg]
    simp only [lookupEntry_upsert_self]
    unfold writeCursorRegistry
    conv in readCursorRegistry home (setFile _ _ _) => rw [readCursorRegistry]
    rw [lookupFS_setFile]
    simp
  rw [hfinal]
  refine ⟨lookupEntry_erase_self _ _, ?_⟩
  intro other hother
  rw [lookupEntry_erase_other _ _ _ hother,
    lookupEntry_upsert_other _ _ _ _ hother]

/-- C8 witness: concrete round trip over a registry holding another entry. -/
theorem register_unregister_exact_frame_witness :
    lookupEntry (readCursorRegistry "/home/u"
      (unregisterCursorProject "/home/u"
        (registerCursorProject "/home/u"
          [(registryPath "/home/u",
            Content.registry [("other", ⟨"/ws/other", 1⟩)])]
          "app" "/ws/app" 5) "app")) "app" = none ∧
    lookupEntry (readCursorRegistry "/home/u"
      (unregisterCursorProject "/home/u"
        (registerCursorProject "/home/u"
          [(registryPath "/home/u",
            Content.registry [("other", ⟨"/ws/other", 1⟩)])]
          "app" "/ws/app" 5) "app")) "other" =
      lookupEntry (readCursorRegistry "/home/u"
        [(registryPath "/home/u",
          Content.registry [("other", ⟨"/ws/other", 1⟩)])]) "other" :=
  ⟨(register_unregister_exact_frame "/home/u"
      [(registryPath "/home/u",
        Content.registry [("other", ⟨"/ws/other", 1⟩)])] "app" "/ws/app" 5).1,
   (register_unregister_exact_frame "/home/u"
      [(registryPath "/home/u",
        Content.registry [("other", ⟨"/ws/other", 1⟩)])] "app" "/ws/app" 5).2
     "other" (by decide)⟩

/-- C9: user-visible failure messages are textual remediation guidance: the
worker-restart message contains PowerShell steps exactly when the platform is
Windows and a plain shell command otherwise, and for every error message
matching one of the six known patterns, `getUserFriendlyError` returns the
original message followed by the solution line of a pattern that matches it. -/
theorem user_facing_error_messages_spec :
    (∀ o : WorkerErrorMessageOptions, o.platform = OS.windows →
      containsStr "PowerShell" (getWorkerRestartInstructions o) = true) ∧
    (∀ o : WorkerErrorMessageOptions, o.platform ≠ OS.windows →
      containsStr "2. Run: npm run worker:restart"
        (getWorkerRestartInstructions o) = true) ∧
    (∀ (msg : String) (ctx : Option String),
      (∃ ps ∈ errorPatterns, ps.1 msg = true) →
      ∃ ps ∈ errorPatterns, ps.1 msg = true ∧
        getUserFriendlyError msg ctx = msg ++ solutionSep ++ ps.2) := by
  refine ⟨?_, ?_, ?_⟩
  · intro o h
    unfold getWorkerRestartInstructions
    apply containsStr_append_right
    apply containsStr_append_left
    apply containsStr_append_right
    rw [h]
    unfold wriStep2
    rw [if_pos rfl]
    decide
  · intro o h
    unfold getWorkerRestartInstructions
    apply containsStr_append_right
    apply containsStr_append_left
    apply containsStr_append_right
    unfold wriStep2
    rw [if_neg h]
    decide
  · intro msg ctx hex
    cases hfind : errorPatterns.find? (fun ps => ps.1 msg) with
    | none =>
      exfalso
      obtain ⟨ps, hmem, htest⟩ := hex
      exact absurd htest (by simpa using List.find?_eq_none.mp hfind ps hmem)
    | some ps =>
      refine ⟨ps, List.mem_of_find?_eq_some hfind, ?_, ?_⟩
      · have := List.find?_some hfind
        simpa using this
      · unfold getUserFriendlyError
        rw [hfind]

/-- C9 witness: concrete evaluations at both platforms and at a
connection-refused error message. -/
theorem user_facing_error_messages_spec_witness :
    containsStr "PowerShell"
      (getWorkerRestartInstructions
        ⟨none, false, none, none, OS.windows⟩) = true ∧
    containsStr "2. Run: npm run worker:restart"
      (getWorkerRestartInstructions
        ⟨some 37777, true, some "Worker down.",
          some "connect ECONNREFUSED", OS.linux⟩) = true ∧
    ∃ ps ∈ errorPatterns,
      ps.1 "connect ECONNREFUSED 127.0.0.1:37777" = true ∧
      getUserFriendlyError "connect ECONNREFUSED 127.0.0.1:37777" none =
        "connect ECONNREFUSED 127.0.0.1:37777" ++ solutionSep ++ ps.2 :=
  ⟨user_facing_error_messages_spec.1 ⟨none, false, none, none, OS.windows⟩ rfl,
   user_facing_error_messages_spec.2.1
     ⟨some 37777, true, some "Worker down.",
       some "connect ECONNREFUSED", OS.linux⟩ (by decide),
   user_facing_error_messages_spec.2.2
     "connect ECONNREFUSED 127.0.0.1:37777" none
     ⟨(fun s => containsCI "ECONNREFUSED" s || containsCI "connection refused" s,
       "The worker service is not running. Try: npm run worker:start"),
      List.Mem.head _,
      by decide⟩⟩

/-- The full set of hook scripts shipped in the source directory (both the
bash and the PowerShell variants exist in the repository; the unix subset is
what a unix install copies). -/
def allSourceScripts : List String :=
  ["common.sh", "session-init.sh", "context-inject.sh",
   "save-observation.sh", "save-file-edit.sh", "session-summary.sh",
   "common.ps1", "session-init.ps1", "context-inject.ps1",
   "save-observation.ps1", "save-file-edit.ps1", "session-summary.ps1"]

/-- The concrete installer environment of the project-scope install
scenario: unix host, all scripts available, worker serving context text `t`. -/
def scenarioEnv (t : String) : InstallEnv :=
  ⟨"/ws/app", "/home/u", OS.linux, allSourceScripts, some t, 77⟩

/-- C6: after a project-scope install into an empty directory, the manifest
file exists and holds exactly the five expected lifecycle events, and the
context snippet file exists, carries the host's `alwaysApply: true` marker
and contains exactly the text returned by the worker's `fetchContext` call
(the snippet is the marker header followed by that text). -/
theorem project_install_manifest_and_snippet :
    ∀ t : String,
      lookupFS (installCursorHooks (scenarioEnv t) "project" []).2
        (manifestPath "/ws/app/.cursor") =
        some (Content.manifest
          (buildManifest OS.linux "project" ("/ws/app" ++ "/.cursor"))) ∧
      (buildManifest OS.linux "project" ("/ws/app" ++ "/.cursor")).hooks.map
        Prod.fst =
        ["beforeSubmitPrompt", "afterMCPExecution", "afterShellExecution",
         "afterFileEdit", "stop"] ∧
      lookupFS (installCursorHooks (scenarioEnv t) "project" []).2
        (snippetPath "/ws/app") =
        some (Content.text (contextFileHeader ++ t)) ∧
      containsStr "alwaysApply: true" (contextFileHeader ++ t) = true ∧
      containsStr t (contextFileHeader ++ t) = true := by
  intro t
  refine ⟨rfl, by decide, rfl, ?_, ?_⟩
  · exact containsStr_append_left _ _ _ (by decide)
  · exact containsStr_append_right _ _ _ (containsStr_self t)

/-- C3, counterexample: project-scope install followed by uninstall does not
restore the empty filesystem byte-identically — the registry backing file,
absent before install, exists afterwards and holds the empty mapping. -/
theorem install_uninstall_registry_residue :
    ¬ sameFiles
      (uninstallCursorHooks (scenarioEnv "CTX") "project"
        (installCursorHooks (scenarioEnv "CTX") "project" []).2).2
      [] := by
  intro h
  exact absurd (h (registryPath "/home/u")) (by decide)

/-- C3 (amended): for every resolvable scope and every pre-install filesystem
in which the install artifacts (manifest, hook-script directory, context
snippet) are absent, the registry backing file already exists and does not
list the project, and the registry path does not collide with any artifact
path, `install` followed by `uninstall` restores the filesystem
byte-identically. (When the registry file was absent beforehand, the round
trip instead leaves it present holding the empty mapping — see the
counterexample.) -/
theorem install_uninstall_roundtrip :
    ∀ (env : InstallEnv) (scope target : String) (fs : FS),
      getTargetDir env.cwd env.home env.os scope = some target →
      lookupFS fs (manifestPath target) = none →
      (∀ e ∈ fs, strStarts (hooksDirPre target) e.1 = false) →
      lookupFS fs (snippetPath env.cwd) = none →
      (∃ r0, lookupFS fs (registryPath env.home) =
          some (Content.registry r0) ∧
        lookupEntry r0 (basename env.cwd) = none) →
      registryPath env.home ≠ manifestPath target →
      strStarts (hooksDirPre target) (registryPath env.home) = false →
      registryPath env.home ≠ snippetPath env.cwd →
      snippetPath env.cwd ≠ manifestPath target →
      strStarts (hooksDirPre target) (snippetPath env.cwd) = false →
      sameFiles
        (uninstallCursorHooks env scope
          (installCursorHooks env scope fs).2).2 fs := by
  intro env scope target fs hT h1 h2 h3 hreg hd1 hd2 hd3 hd4 hd5
  obtain ⟨r0, hr0, hr0n⟩ := hreg
  have hmp_rp : ¬ manifestPath target = registryPath env.home :=
    fun h => hd1 h.symm
  have hinst : (installCursorHooks env scope fs).2 =
      registerStep env scope (snippetStep env scope
        (copyScripts env.sourceScripts target (scriptsToCopy env.os)
          (setFile fs (manifestPath target)
            (Content.manifest (buildManifest env.os scope target))))) := by
    unfold installCursorHooks
    rw [hT]
  rw [hinst]
  have huninst : ∀ g : FS, (uninstallCursorHooks env scope g).2 =
      unregisterStep env scope (snippetRemoveStep env scope
        (removePrefixed (removeFile g (manifestPath target))
          (hooksDirPre target))) := by
    intro g
    unfold uninstallCursorHooks
    rw [hT]
  rw [huninst]
  set A := setFile fs (manifestPath target)
    (Content.manifest (buildManifest env.os scope target)) with hA
  set B := copyScripts env.sourceScripts target (scriptsToCopy env.os) A
    with hB
  set C := snippetStep env scope B with hC
  set D := registerStep env scope C with hD
  set E := removeFile D (manifestPath target) with hE
  set F := removePrefixed E (hooksDirPre target) with hF
  set G := snippetRemoveStep env scope F with hG
  have hArp : lookupFS A (registryPath env.home) =
      some (Content.registry r0) := by
    rw [hA, lookupFS_setFile, if_neg hmp_rp]
    exact hr0
  have hBrp : lookupFS B (registryPath env.home) =
      some (Content.registry r0) := by
    rw [hB, lookupFS_copyScripts _ _ _ _ _ hd2]
    exact hArp
  have hCrp : lookupFS C (registryPath env.home) =
      some (Content.registry r0) := by
    rw [hC, lookupFS_snippetStep_ne _ _ _ _ (Ne.symm hd3)]
    exact hBrp
  -- lookups away from every touched path pass through the install steps
  have hthrough : ∀ q, registryPath env.home ≠ q →
      snippetPath env.cwd ≠ q →
      ¬ manifestPath target = q →
      strStarts (hooksDirPre target) q = false →
      lookupFS D q = lookupFS fs q := by
    intro q hq hsp hmp hpq
    rw [hD, lookupFS_registerStep_ne _ _ _ _ hq,
      hC, lookupFS_snippetStep_ne _ _ _ _ hsp,
      hB, lookupFS_copyScripts _ _ _ _ _ hpq,
      hA, lookupFS_setFile, if_neg hmp]
  by_cases hs : scope = "project"
  · -- project scope: the registry round-trips through upsert and erase
    have hDdef : D = registerCursorProject env.home C (basename env.cwd)
        env.cwd env.now := by
      rw [hD]
      unfold registerStep
      rw [if_pos hs]
    have hreadC : readCursorRegistry env.home C = r0 := by
      unfold readCursorRegistry
      rw [hCrp]
    have hDrp : lookupFS D (registryPath env.home) =
        some (Content.registry (upsertEntry r0 (basename env.cwd)
          ⟨env.cwd, env.now⟩)) := by
      rw [hDdef]
      unfold registerCursorProject writeCursorRegistry
      rw [lookupFS_setFile, if_pos rfl, hreadC]
    have hGrp : lookupFS G (registryPath env.home) =
        some (Content.registry (upsertEntry r0 (basename env.cwd)
          ⟨env.cwd, env.now⟩)) := by
      rw [hG, lookupFS_snippetRemoveStep_ne _ _ _ _ (Ne.symm hd3),
        hF, lookupFS_removePrefixed, hd2]
      simp only [Bool.false_eq_true, if_false]
      rw [hE, lookupFS_removeFile, if_neg hmp_rp]
      exact hDrp
    have hreadG : readCursorRegistry env.home G =
        upsertEntry r0 (basename env.cwd) ⟨env.cwd, env.now⟩ := by
      unfold readCursorRegistry
      rw [hGrp]
    have hH : unregisterStep env scope G =
        writeCursorRegistry env.home G
          (eraseEntry (upsertEntry r0 (basename env.cwd)
            ⟨env.cwd, env.now⟩) (basename env.cwd)) := by
      unfold unregisterStep
      rw [if_pos hs]
      unfold unregisterCursorProject
      rw [hreadG]
      simp only [lookupEntry_upsert_self]
    rw [hH, eraseEntry_upsert r0 _ _ hr0n]
    intro q
    unfold writeCursorRegistry
    rw [lookupFS_setFile]
    by_cases hq : registryPath env.home = q
    · rw [if_pos hq, ← hq]
      exact hr0.symm
    · rw [if_neg hq]
      by_cases hsp : snippetPath env.cwd = q
      · rw [hG]
        unfold snippetRemoveStep
        rw [if_pos hs, lookupFS_removeFile, if_pos hsp, ← hsp]
        exact h3.symm
      · rw [hG, lookupFS_snippetRemoveStep_ne _ _ _ _ hsp,
          hF, lookupFS_removePrefixed]
        cases hpq : strStarts (hooksDirPre target) q with
        | true =>
          simp only [if_true]
          exact (lookupFS_none_of_all fs _ q h2 hpq).symm
        | false =>
          simp only [Bool.false_eq_true, if_false]
          rw [hE, lookupFS_removeFile]
          by_cases hmp : manifestPath target = q
          · rw [if_pos hmp, ← hmp]
            exact h1.symm
          · rw [if_neg hmp]
            exact hthrough q hq hsp hmp hpq
  · -- user / enterprise scope: the registry and snippet are never touched
    intro q
    have hGF : G = F := by
      rw [hG]
      unfold snippetRemoveStep
      rw [if_neg hs]
    have hH : unregisterStep env scope G = G := by
      unfold unregisterStep
      rw [if_neg hs]
    rw [hH, hGF, hF, lookupFS_removePrefixed]
    cases hpq : strStarts (hooksDirPre target) q with
    | true =>
      simp only [if_true]
      exact (lookupFS_none_of_all fs _ q h2 hpq).symm
    | false =>
      simp only [Bool.false_eq_true, if_false]
      rw [hE, lookupFS_removeFile]
      by_cases hmp : manifestPath target = q
      · rw [if_pos hmp, ← hmp]
        exact h1.symm
      · rw [if_neg hmp]
        have hDC : D = C := by
          rw [hD]
          unfold registerStep
          rw [if_neg hs]
        have hCB : C = B := by
          rw [hC]
          unfold snippetStep
          rw [if_neg hs]
        rw [hDC, hCB, hB, lookupFS_copyScripts _ _ _ _ _ hpq,
          hA, lookupFS_setFile, if_neg hmp]

/-- C3 witness: concrete project-scope round trip over a filesystem whose
registry file exists and lists a different project. -/
theorem install_uninstall_roundtrip_witness :
    sameFiles
      (uninstallCursorHooks (scenarioEnv "CTX") "project"
        (installCursorHooks (scenarioEnv "CTX") "project"
          [(registryPath "/home/u",
            Content.registry [("other", ⟨"/ws/other", 1⟩)])]).2).2
      [(registryPath "/home/u",
        Content.registry [("other", ⟨"/ws/other", 1⟩)])] :=
  install_uninstall_roundtrip (scenarioEnv "CTX") "project"
    ("/ws/app" ++ "/.cursor")
    [(registryPath "/home/u", Content.registry [("other", ⟨"/ws/other", 1⟩)])]
    rfl
    (by decide)
    (by
      intro e he
      rcases List.mem_singleton.mp he with rfl
      decide)
    (by decide)
    ⟨[("other", ⟨"/ws/other", 1⟩)], by decide, by decide⟩
    (by decide) (by decide) (by decide) (by decide) (by decide)
